import Mathlib

/-!
Shallow embedding of `src/main.go` of bwesterb/privsematt: the
authorization gate (`checkAuthorization`), the submission handler
(`submitHandler`), the constant-time token comparison
(`crypto/subtle.ConstantTimeCompare`) together with an instrumented cost
model, and the behaviour of `encoding/json.Unmarshal` on the `Request`
struct, modelled at the level of already-lexed JSON values.

Go strings and byte slices are modelled as lists of byte values
(`List Nat`, each element intended to be `< 256`).  External collaborators
(the gorm database, the gomail dialer, the system clock) are modelled as
explicit inputs and outputs of the handler: the clock sample `now`, the
persistence outcome `persistOk`, the list of records handed to `db.Create`
and the list of mail messages handed to the background send goroutine.
-/

namespace Privsematt

/-- Go strings and byte slices, as lists of byte values. -/
abbrev GoStr := List Nat

/-- Byte values of an ASCII string literal (used to write the concrete
strings appearing in `main.go`). -/
def bytes (s : String) : GoStr := s.data.map Char.toNat

/-- Every element is a byte value, as in a Go `[]byte`. -/
def isBytes (s : GoStr) : Prop := ∀ b ∈ s, b < 256

instance (s : GoStr) : Decidable (isBytes s) :=
  inferInstanceAs (Decidable (∀ b ∈ s, b < 256))

/-- The `Request` struct of main.go: data sent along with the POST
request.  Zero value of each field is the empty string. -/
structure Request where
  Name : GoStr
  SurfId : GoStr
  EMail : GoStr
deriving DecidableEq

/-- The zero value `var request Request`. -/
def zeroRequest : Request := ⟨[], [], []⟩

/-- The `Record` struct of main.go (the attendance record).  The `ID`
column is assigned by the persistence layer (gorm) and is omitted here;
`When` is the clock instant sampled by `time.Now()`. -/
structure Record where
  When : Nat
  Name : GoStr
  SurfId : GoStr
  EMail : GoStr
deriving DecidableEq

/-! ## crypto/subtle -/

/-- `subtle.ConstantTimeByteEq(x, y)`: `int((uint32(x^y) - 1) >> 31)`,
with the `uint32` subtraction written as addition of `2^32 - 1`
modulo `2^32`. -/
def constantTimeByteEq (x y : Nat) : Nat :=
  (((x ^^^ y) + (2 ^ 32 - 1)) % 2 ^ 32) >>> 31

/-- `subtle.ConstantTimeCompare(x, y)`: `0` when the lengths differ,
otherwise the byte-equality test of the or-accumulated xor of all byte
pairs against `0`. -/
def constantTimeCompare (x y : GoStr) : Nat :=
  if x.length ≠ y.length then 0
  else constantTimeByteEq ((x.zip y).foldl (fun v p => v ||| (p.1 ^^^ p.2)) 0) 0

/-- Instrumented running time of `constantTimeCompare`, read off the
structure of the Go source: one unit for the length test, and on equal
lengths one unit of loop work per byte pair plus one unit for the final
byte-equality test.  The cost is a function of the two lengths alone. -/
def constantTimeCompareCost (x y : GoStr) : Nat :=
  if x.length ≠ y.length then 1 else 1 + x.length + 1

/-- The token-scanning loop of `checkAuthorization`
(`for _, okToken := range conf.AllowedAuthorizationTokens`), paired with
its accumulated comparison cost: candidates are examined in order until
all are scanned or a comparison succeeds. -/
def scanTokens (allowList : List GoStr) (token : GoStr) : Bool × Nat :=
  match allowList with
  | [] => (false, 0)
  | okToken :: rest =>
    if constantTimeCompare token okToken = 1 then
      (true, constantTimeCompareCost token okToken)
    else
      let p := scanTokens rest token
      (p.1, constantTimeCompareCost token okToken + p.2)

/-! ## strings.SplitN -/

/-- Split a byte string at its first space byte (32), when present. -/
def splitOnFirstSpace : GoStr → Option (GoStr × GoStr)
  | [] => none
  | b :: rest =>
    if b = 32 then some ([], rest)
    else
      match splitOnFirstSpace rest with
      | none => none
      | some (pre, post) => some (b :: pre, post)

/-- `strings.SplitN(s, " ", 2)`: a one-element list `[s]` when `s` has no
space (also when `s` is empty), otherwise the part before the first space
followed by the whole rest. -/
def splitN2 (s : GoStr) : List GoStr :=
  match splitOnFirstSpace s with
  | none => [s]
  | some (pre, post) => [pre, post]

/-! ## checkAuthorization -/

/-- Outcome of `checkAuthorization`: `allowed` is the `return true` path
with no response written; `rejected` records the status code and message
handed to `http.Error` before `return false`. -/
inductive AuthResult where
  | allowed
  | rejected (status : Nat) (message : GoStr)
deriving DecidableEq

/-- The bytes of the scheme name compared case-sensitively by the code. -/
def basicBytes : GoStr := bytes "Basic"

/-- `checkAuthorization` from main.go.  `authHeader` is
`r.Header.Get("Authorization")`, the empty string when the header is
absent.  `http.StatusBadRequest` is 400 and `http.StatusUnauthorized` is
401. -/
def checkAuthorization (allowList : List GoStr) (authHeader : GoStr) : AuthResult :=
  if allowList.length = 0 then .allowed
  else
    let auth := splitN2 authHeader
    if auth.length ≠ 2 ∨ auth.headD [] ≠ basicBytes then
      .rejected 400 (bytes "Bad or missing Authorization header")
    else
      let token := auth.getD 1 []
      if (scanTokens allowList token).1 then .allowed
      else .rejected 401 (bytes "Access denied")

/-! ## encoding/json.Unmarshal into Request -/

/-- A lexed JSON value.  Numbers are kept abstract as integers: the
handler never reads a numeric payload value, it only matters that a
number is not a string. -/
inductive JVal where
  | null
  | bool (b : Bool)
  | num (n : Int)
  | str (s : GoStr)
  | arr (xs : List JVal)
  | obj (fields : List (GoStr × JVal))

/-- ASCII lower-casing of one byte, as used by the field matching of
encoding/json for ASCII field names. -/
def asciiToLower (b : Nat) : Nat := if 65 ≤ b ∧ b ≤ 90 then b + 32 else b

/-- ASCII-case-insensitive equality of byte strings: the field-name
matching of encoding/json (which tries an exact match first, subsumed
here since exact equality implies fold equality, and the three field
names of `Request` are pairwise distinct under folding). -/
def eqFold (a b : GoStr) : Bool := a.map asciiToLower == b.map asciiToLower

/-- Modelled behaviour of encoding/json when assigning one object member
to the `Request` struct: a member whose name matches `Name`, `SurfId` or
`EMail` must hold a JSON string (a JSON `null` member is skipped without
error, any other type is an unmarshal type error); members with unknown
names are ignored.  The error texts abbreviate the Go ones: the handler
only tests whether an error occurred. -/
def setField (req : Request) (key : GoStr) (v : JVal) : Except GoStr Request :=
  if eqFold key (bytes "Name") then
    match v with
    | .str s => .ok { req with Name := s }
    | .null => .ok req
    | _ => .error (bytes "json: cannot unmarshal value into Go struct field Request.Name of type string")
  else if eqFold key (bytes "SurfId") then
    match v with
    | .str s => .ok { req with SurfId := s }
    | .null => .ok req
    | _ => .error (bytes "json: cannot unmarshal value into Go struct field Request.SurfId of type string")
  else if eqFold key (bytes "EMail") then
    match v with
    | .str s => .ok { req with EMail := s }
    | .null => .ok req
    | _ => .error (bytes "json: cannot unmarshal value into Go struct field Request.EMail of type string")
  else .ok req

/-- Assign the members of a JSON object in order (a later duplicate
member overwrites an earlier one).  Go records the first error and keeps
decoding; since the caller only tests `err != nil` and discards the
partially filled struct on error, stopping at the first error is
observationally equivalent for the handler. -/
def unmarshalFields : Request → List (GoStr × JVal) → Except GoStr Request
  | req, [] => .ok req
  | req, (k, v) :: rest =>
    match setField req k v with
    | .error e => .error e
    | .ok r => unmarshalFields r rest

/-- `json.Unmarshal([]byte(r.FormValue("request")), &request)` with
`request` the zero value.  The input `none` stands for a form-field text
that is not valid JSON, including the empty text obtained when the
`request` form field is absent (`FormValue` returns the empty string,
and unmarshalling empty input fails with an unexpected-end error).
A top-level JSON `null` succeeds and leaves the zero value; a top-level
object assigns its members; any other top-level value is a type error. -/
def unmarshalRequest : Option JVal → Except GoStr Request
  | none => .error (bytes "unexpected end of JSON input")
  | some .null => .ok zeroRequest
  | some (.obj fields) => unmarshalFields zeroRequest fields
  | some _ => .error (bytes "json: cannot unmarshal value into Go value of type main.Request")

/-! ## The mail message and the handler -/

/-- A gomail message as assembled by the handler: the four headers and
body set on `gomail.NewMessage()`. -/
structure Message where
  From : GoStr
  To : GoStr
  Subject : GoStr
  Body : GoStr
deriving DecidableEq

/-- Decimal rendering of the modelled clock instant, standing in for the
default formatting of a Go `time.Time` inside `fmt.Sprintf`; what matters
is that it is a function of the timestamp alone. -/
def formatTime (t : Nat) : GoStr := bytes (toString t)

/-- The message built from an attendance record by `submitHandler`:
fixed From and Subject, To equal to the EMail of the record, and a body
interpolating the Name and the formatted When of the record. -/
def buildMessage (r : Record) : Message :=
  { From := bytes "Privacy Seminar <no-reply@metrics.privacybydesign.foundation>"
    To := r.EMail
    Subject := bytes "Your presence at Privacy and Identity"
    Body := bytes "Dear student " ++ r.Name ++
      bytes ",\n\nThis email confirms that your presence at the course\nPrivacy and Identity has been registered at: " ++
      formatTime r.When ++
      bytes "\n\nWith best regards,\nKoning and Jacobs\n" }

/-- One inbound request together with the modelled environment: the
configured allow-list, the raw Authorization header value, the lexed
JSON payload of the `request` form field (`none` when absent or not
valid JSON), the clock sample taken by `time.Now()`, and whether the
persistence sink accepts the write (`db.Create` error nil or not). -/
structure HandlerInput where
  allowList : List GoStr
  authHeader : GoStr
  payload : Option JVal
  now : Nat
  persistOk : Bool

/-- Observable outcome of one call to `submitHandler`: the HTTP status
and body written (status 200 with empty body on the success path, where
the code writes nothing), the records handed to `db.Create`, the records
the sink reports as written, whether a persistence failure was logged,
and the messages handed to the background mail goroutine. -/
structure HandlerOutput where
  status : Nat
  body : GoStr
  created : List Record
  stored : List Record
  persistFailureLogged : Bool
  notifications : List Message
deriving DecidableEq

/-- `submitHandler` from main.go: authorization gate, payload parse,
record construction with the current clock sample, persistence attempt
whose failure is only logged, and unconditional dispatch of the built
mail message to the background goroutine. -/
def submitHandler (inp : HandlerInput) : HandlerOutput :=
  match checkAuthorization inp.allowList inp.authHeader with
  | .rejected st msg =>
    { status := st, body := msg, created := [], stored := [],
      persistFailureLogged := false, notifications := [] }
  | .allowed =>
    match unmarshalRequest inp.payload with
    | .error e =>
      { status := 400, body := bytes "Missing or malformed request form field: " ++ e,
        created := [], stored := [], persistFailureLogged := false, notifications := [] }
    | .ok request =>
      let record : Record :=
        { When := inp.now, Name := request.Name,
          SurfId := request.SurfId, EMail := request.EMail }
      { status := 200, body := [],
        created := [record],
        stored := if inp.persistOk then [record] else [],
        persistFailureLogged := !inp.persistOk,
        notifications := [buildMessage record] }

/-! ## Helper lemmas -/

theorem nat_lor_eq_zero {a b : Nat} (h : a ||| b = 0) : a = 0 ∧ b = 0 := by
  constructor <;>
  · apply Nat.eq_of_testBit_eq
    intro i
    have h2 : (a ||| b).testBit i = Nat.testBit 0 i := by rw [h]
    simp only [Nat.testBit_or, Nat.zero_testBit, Bool.or_eq_false_iff] at h2
    simp [h2.1, h2.2]

/-- The accumulating loop of ConstantTimeCompare yields zero exactly when
the accumulator starts at zero and every byte pair agrees. -/
theorem fold_or_xor_eq_zero (l : List (Nat × Nat)) (a : Nat) :
    l.foldl (fun v p => v ||| (p.1 ^^^ p.2)) a = 0 ↔ a = 0 ∧ ∀ p ∈ l, p.1 = p.2 := by
  induction l generalizing a with
  | nil => simp
  | cons p rest ih =>
    simp only [List.foldl_cons, ih, List.mem_cons]
    constructor
    · rintro ⟨h0, hrest⟩
      obtain ⟨ha, hxor⟩ := nat_lor_eq_zero h0
      refine ⟨ha, ?_⟩
      rintro q (rfl | hq)
      · exact Nat.xor_eq_zero.mp hxor
      · exact hrest q hq
    · rintro ⟨ha, hall⟩
      subst ha
      have hx : p.1 ^^^ p.2 = 0 := Nat.xor_eq_zero.mpr (hall p (Or.inl rfl))
      exact ⟨by simp [hx], fun q hq => hall q (Or.inr hq)⟩

theorem fold_or_xor_lt (l : List (Nat × Nat)) (a : Nat) (ha : a < 256)
    (hl : ∀ p ∈ l, p.1 < 256 ∧ p.2 < 256) :
    l.foldl (fun v p => v ||| (p.1 ^^^ p.2)) a < 256 := by
  induction l generalizing a with
  | nil => simpa using ha
  | cons p rest ih =>
    simp only [List.foldl_cons]
    apply ih
    · have hp := hl p (List.mem_cons_self p rest)
      have hx : p.1 ^^^ p.2 < 2 ^ 8 := Nat.xor_lt_two_pow hp.1 hp.2
      have := Nat.or_lt_two_pow (n := 8) ha hx
      simpa using this
    · exact fun q hq => hl q (List.mem_cons_of_mem p hq)

theorem constantTimeByteEq_eq_one {v : Nat} (hv : v < 256) :
    constantTimeByteEq v 0 = 1 ↔ v = 0 := by
  unfold constantTimeByteEq
  rw [Nat.xor_zero]
  constructor
  · intro h
    by_contra hne
    have hmod : (v + (2 ^ 32 - 1)) % 2 ^ 32 = v - 1 := by omega
    rw [hmod, Nat.shiftRight_eq_div_pow] at h
    have : (v - 1) / 2 ^ 31 = 0 := Nat.div_eq_of_lt (by omega)
    omega
  · rintro rfl
    decide

theorem zip_self_pairs : ∀ (x : List Nat), ∀ p ∈ x.zip x, p.1 = p.2
  | [], p, hp => by cases hp
  | a :: x, p, hp => by
    rw [List.zip_cons_cons] at hp
    rcases List.mem_cons.mp hp with rfl | hmem
    · rfl
    · exact zip_self_pairs x p hmem

theorem eq_of_zip_eq : ∀ {x y : List Nat}, x.length = y.length →
    (∀ p ∈ x.zip y, p.1 = p.2) → x = y
  | [], [], _, _ => rfl
  | [], _ :: _, hlen, _ => by cases hlen
  | _ :: _, [], hlen, _ => by cases hlen
  | a :: x, b :: y, hlen, h => by
    have hab : a = b := h (a, b) (by rw [List.zip_cons_cons]; exact List.mem_cons_self _ _)
    have hxy : x = y := eq_of_zip_eq (by simpa using hlen)
      (fun p hp => h p (by rw [List.zip_cons_cons]; exact List.mem_cons_of_mem _ hp))
    rw [hab, hxy]

/-- Correctness of the modelled subtle.ConstantTimeCompare on byte
strings: it yields 1 exactly on equal inputs. -/
theorem constantTimeCompare_eq_one {x y : GoStr} (hx : isBytes x) (hy : isBytes y) :
    constantTimeCompare x y = 1 ↔ x = y := by
  unfold constantTimeCompare
  by_cases hlen : x.length = y.length
  · simp only [hlen, ne_eq, not_true_eq_false, if_false]
    have hpairs : ∀ p ∈ x.zip y, p.1 < 256 ∧ p.2 < 256 := by
      intro p hp
      obtain ⟨h1, h2⟩ := List.of_mem_zip hp
      exact ⟨hx p.1 h1, hy p.2 h2⟩
    have hlt := fold_or_xor_lt (x.zip y) 0 (by omega) hpairs
    rw [constantTimeByteEq_eq_one hlt, fold_or_xor_eq_zero]
    constructor
    · rintro ⟨-, hall⟩
      exact eq_of_zip_eq hlen hall
    · rintro rfl
      exact ⟨rfl, zip_self_pairs x⟩
  · rw [if_pos hlen]
    constructor
    · intro h; exact absurd h (by decide)
    · intro h; exact absurd (congrArg List.length h) hlen

theorem constantTimeCompare_self (x : GoStr) : constantTimeCompare x x = 1 := by
  unfold constantTimeCompare
  simp only [ne_eq, not_true_eq_false, if_false]
  have h0 : (x.zip x).foldl (fun v p => v ||| (p.1 ^^^ p.2)) 0 = 0 :=
    (fold_or_xor_eq_zero _ _).mpr ⟨rfl, zip_self_pairs x⟩
  rw [h0]
  decide

theorem scanTokens_fst_of_mem {L : List GoStr} {t : GoStr} (h : t ∈ L) :
    (scanTokens L t).1 = true := by
  induction L with
  | nil => cases h
  | cons ok rest ih =>
    unfold scanTokens
    by_cases hc : constantTimeCompare t ok = 1
    · simp [hc]
    · have ht : t ∈ rest := by
        rcases List.mem_cons.mp h with rfl | hmem
        · exact absurd (constantTimeCompare_self t) hc
        · exact hmem
      simp [hc, ih ht]

theorem scanTokens_fst_of_no_match {L : List GoStr} {t : GoStr}
    (hbt : isBytes t) (hbL : ∀ ok ∈ L, isBytes ok)
    (h : ∀ ok ∈ L, t ≠ ok) : (scanTokens L t).1 = false := by
  induction L with
  | nil => rfl
  | cons ok rest ih =>
    unfold scanTokens
    have hc : ¬ constantTimeCompare t ok = 1 := by
      rw [constantTimeCompare_eq_one hbt (hbL ok (List.mem_cons_self ok rest))]
      exact h ok (List.mem_cons_self ok rest)
    simp only [hc, if_false]
    exact ih (fun o ho => hbL o (List.mem_cons_of_mem ok ho))
      (fun o ho => h o (List.mem_cons_of_mem ok ho))

theorem splitOnFirstSpace_append {pre : GoStr} (hpre : ∀ b ∈ pre, b ≠ 32) (t : GoStr) :
    splitOnFirstSpace (pre ++ 32 :: t) = some (pre, t) := by
  induction pre with
  | nil => simp [splitOnFirstSpace]
  | cons b rest ih =>
    have hb : b ≠ 32 := hpre b (List.mem_cons_self b rest)
    have ih2 := ih (fun c hc => hpre c (List.mem_cons_of_mem b hc))
    simp only [List.cons_append, splitOnFirstSpace, hb, if_false, List.append_eq, ih2]

theorem splitOnFirstSpace_eq_some {s pre post : GoStr}
    (h : splitOnFirstSpace s = some (pre, post)) : s = pre ++ 32 :: post := by
  induction s generalizing pre post with
  | nil => simp [splitOnFirstSpace] at h
  | cons b rest ih =>
    unfold splitOnFirstSpace at h
    by_cases hb : b = 32
    · rw [if_pos hb] at h
      have h2 : (([] : GoStr), rest) = (pre, post) := Option.some.inj h
      have h3 : ([] : GoStr) = pre := congrArg Prod.fst h2
      have h4 : rest = post := congrArg Prod.snd h2
      subst h3; subst h4
      simp [hb]
    · rw [if_neg hb] at h
      cases hsplit : splitOnFirstSpace rest with
      | none => rw [hsplit] at h; cases h
      | some q =>
        obtain ⟨a, c⟩ := q
        rw [hsplit] at h
        have h2 : (b :: a, c) = (pre, post) := Option.some.inj h
        have h3 : b :: a = pre := congrArg Prod.fst h2
        have h4 : c = post := congrArg Prod.snd h2
        subst h3; subst h4
        simp [ih hsplit]

theorem scanTokens_cost_eq {t1 t2 : GoStr} (hlen : t1.length = t2.length) :
    ∀ L : List GoStr,
      (∀ ok ∈ L, constantTimeCompare t1 ok = 1 ↔ constantTimeCompare t2 ok = 1) →
      (scanTokens L t1).2 = (scanTokens L t2).2
  | [], _ => rfl
  | ok :: rest, hmatch => by
    have hok := hmatch ok (List.mem_cons_self ok rest)
    have hrest := fun o ho => hmatch o (List.mem_cons_of_mem ok ho)
    by_cases hc : constantTimeCompare t1 ok = 1
    · have hc2 : constantTimeCompare t2 ok = 1 := hok.mp hc
      simp [scanTokens, hc, hc2, constantTimeCompareCost, hlen]
    · have hc2 : ¬ constantTimeCompare t2 ok = 1 := fun h => hc (hok.mpr h)
      simp [scanTokens, hc, hc2, constantTimeCompareCost, hlen,
        scanTokens_cost_eq hlen rest hrest]

theorem scanTokens_fst_any (L : List GoStr) (t : GoStr) :
    (scanTokens L t).1 = (L.any fun ok => constantTimeCompare t ok == 1) := by
  induction L with
  | nil => rfl
  | cons ok rest ih =>
    by_cases hc : constantTimeCompare t ok = 1
    · simp [scanTokens, hc]
    · simp [scanTokens, hc, ih]

/-! ## Claim theorems -/

/-- C1: With an empty configured allow-list, checkAuthorization returns
allowed for every request, whatever the Authorization header holds, and
writes no error response. -/
theorem empty_allowlist_allows_every_request (authHeader : GoStr) :
    checkAuthorization [] authHeader = .allowed := rfl

/-- C2: For every non-empty allow-list and every request whose
Authorization header is exactly the bytes of Basic, one space, and a
token byte-for-byte equal to some entry of the list, checkAuthorization
returns allowed, writing no error response. -/
theorem basic_token_in_list_allowed (allowList : List GoStr) (token : GoStr)
    (hne : allowList ≠ []) (hmem : token ∈ allowList) :
    checkAuthorization allowList (basicBytes ++ 32 :: token) = .allowed := by
  have hsplit : splitOnFirstSpace (basicBytes ++ 32 :: token) = some (basicBytes, token) :=
    splitOnFirstSpace_append (by decide) token
  have hlen : ¬ allowList.length = 0 := by simpa [List.length_eq_zero] using hne
  have hscan : (scanTokens allowList token).1 = true := scanTokens_fst_of_mem hmem
  simp [checkAuthorization, splitN2, hsplit, hlen, hscan]

theorem basic_token_in_list_allowed_witness :
    checkAuthorization [bytes "secrettoken"] (basicBytes ++ 32 :: bytes "secrettoken") =
      .allowed :=
  basic_token_in_list_allowed [bytes "secrettoken"] (bytes "secrettoken")
    (by decide) (by decide)

/-- C3: For every non-empty allow-list, a request whose Authorization
header is not of the form Basic-space-token (in particular an absent
header, read as the empty string) is rejected with status 400 and the
malformed-header message, while a well-formed header whose token (a byte
string, like every configured entry) is in no entry of the list is
rejected with status 401 and the access-denied message: the two
rejection reasons are distinct. -/
theorem nonempty_allowlist_rejections (allowList : List GoStr) (authHeader : GoStr)
    (hne : allowList ≠ []) :
    (¬ (∃ t, authHeader = basicBytes ++ 32 :: t) →
      checkAuthorization allowList authHeader =
        .rejected 400 (bytes "Bad or missing Authorization header")) ∧
    (∀ t, authHeader = basicBytes ++ 32 :: t → isBytes t →
      (∀ ok ∈ allowList, isBytes ok) → t ∉ allowList →
      checkAuthorization allowList authHeader =
        .rejected 401 (bytes "Access denied")) := by
  have hlen : ¬ allowList.length = 0 := by simpa [List.length_eq_zero] using hne
  constructor
  · intro hmal
    cases hsp : splitOnFirstSpace authHeader with
    | none =>
      simp [checkAuthorization, hlen, splitN2, hsp]
    | some q =>
      obtain ⟨pre, post⟩ := q
      have heq : authHeader = pre ++ 32 :: post := splitOnFirstSpace_eq_some hsp
      have hpre : pre ≠ basicBytes := by
        intro h
        exact hmal ⟨post, by rw [heq, h]⟩
      simp [checkAuthorization, hlen, splitN2, hsp, hpre]
  · intro t ht hbt hbL hnot
    subst ht
    have hsplit : splitOnFirstSpace (basicBytes ++ 32 :: t) = some (basicBytes, t) :=
      splitOnFirstSpace_append (by decide) t
    have hscan : (scanTokens allowList t).1 = false :=
      scanTokens_fst_of_no_match hbt hbL (fun ok hok h => hnot (h ▸ hok))
    simp [checkAuthorization, hlen, splitN2, hsplit, hscan]

theorem nonempty_allowlist_rejections_witness :
    checkAuthorization [bytes "secrettoken"] [] =
      .rejected 400 (bytes "Bad or missing Authorization header") ∧
    checkAuthorization [bytes "secrettoken"] (basicBytes ++ 32 :: bytes "wrongtoken") =
      .rejected 401 (bytes "Access denied") :=
  ⟨(nonempty_allowlist_rejections [bytes "secrettoken"] [] (by decide)).1
      (by rintro ⟨t, h⟩; simp [basicBytes, bytes] at h),
   (nonempty_allowlist_rejections [bytes "secrettoken"] _ (by decide)).2
      (bytes "wrongtoken") rfl (by decide) (by decide) (by decide)⟩

/-- C4: A request that checkAuthorization rejects makes submitHandler
return at once with the status and message of the rejection: no record
is created or stored, no notification is built or dispatched, and the
outcome does not depend on the payload, which is never parsed. -/
theorem rejected_auth_short_circuits (inp : HandlerInput) (st : Nat) (msg : GoStr)
    (h : checkAuthorization inp.allowList inp.authHeader = .rejected st msg) :
    submitHandler inp =
      { status := st, body := msg, created := [], stored := [],
        persistFailureLogged := false, notifications := [] } ∧
    ∀ p, submitHandler { inp with payload := p } = submitHandler inp := by
  constructor
  · simp [submitHandler, h]
  · intro p
    simp [submitHandler, h]

theorem rejected_auth_short_circuits_witness :
    submitHandler ⟨[bytes "secrettoken"], [], none, 0, true⟩ =
      { status := 400, body := bytes "Bad or missing Authorization header",
        created := [], stored := [], persistFailureLogged := false,
        notifications := [] } :=
  (rejected_auth_short_circuits ⟨[bytes "secrettoken"], [], none, 0, true⟩ 400
    (bytes "Bad or missing Authorization header") (by decide)).1

/-- C5: For every authorized request whose payload is absent or fails to
unmarshal, submitHandler responds with status 400 and a diagnostic
message, and neither creates a record nor builds or dispatches a
notification. -/
theorem invalid_payload_rejected_400 (inp : HandlerInput) (e : GoStr)
    (hauth : checkAuthorization inp.allowList inp.authHeader = .allowed)
    (hparse : unmarshalRequest inp.payload = .error e) :
    submitHandler inp =
      { status := 400,
        body := bytes "Missing or malformed request form field: " ++ e,
        created := [], stored := [], persistFailureLogged := false,
        notifications := [] } := by
  simp [submitHandler, hauth, hparse]

theorem invalid_payload_rejected_400_witness :
    submitHandler ⟨[], [], none, 0, true⟩ =
      { status := 400,
        body := bytes "Missing or malformed request form field: " ++
          bytes "unexpected end of JSON input",
        created := [], stored := [], persistFailureLogged := false,
        notifications := [] } :=
  invalid_payload_rejected_400 ⟨[], [], none, 0, true⟩
    (bytes "unexpected end of JSON input") rfl rfl

/-- C6: For every authorized request with a payload that unmarshals to a
request value, submitHandler hands exactly one record to the persistence
sink, with Name, SurfId and EMail copied verbatim and When equal to the
clock sample of the call, which lies between any bounds enclosing it;
when the sink accepts the write, exactly that record is stored. -/
theorem valid_payload_creates_one_record (inp : HandlerInput) (req : Request)
    (tStart tEnd : Nat)
    (hauth : checkAuthorization inp.allowList inp.authHeader = .allowed)
    (hparse : unmarshalRequest inp.payload = .ok req)
    (hpersist : inp.persistOk = true)
    (h1 : tStart ≤ inp.now) (h2 : inp.now ≤ tEnd) :
    (submitHandler inp).created =
      [{ When := inp.now, Name := req.Name, SurfId := req.SurfId, EMail := req.EMail }] ∧
    (submitHandler inp).stored =
      [{ When := inp.now, Name := req.Name, SurfId := req.SurfId, EMail := req.EMail }] ∧
    ∀ r ∈ (submitHandler inp).created, tStart ≤ r.When ∧ r.When ≤ tEnd := by
  refine ⟨by simp [submitHandler, hauth, hparse], by simp [submitHandler, hauth, hparse, hpersist], ?_⟩
  intro r hr
  simp [submitHandler, hauth, hparse] at hr
  subst hr
  exact ⟨h1, h2⟩

theorem valid_payload_creates_one_record_witness :
    (submitHandler ⟨[], [], some .null, 5, true⟩).created =
      [{ When := 5, Name := [], SurfId := [], EMail := [] }] ∧
    (submitHandler ⟨[], [], some .null, 5, true⟩).stored =
      [{ When := 5, Name := [], SurfId := [], EMail := [] }] ∧
    ∀ r ∈ (submitHandler ⟨[], [], some .null, 5, true⟩).created,
      5 ≤ r.When ∧ r.When ≤ 5 :=
  valid_payload_creates_one_record ⟨[], [], some .null, 5, true⟩ zeroRequest 5 5
    rfl rfl rfl (by decide) (by decide)

/-- C7: For every authorized request with a payload that unmarshals, a
failing persistence write changes neither the HTTP status nor the body
nor the dispatched notifications compared to a successful write: the
caller still gets the 200 success response, and the notification is
still dispatched. -/
theorem persist_failure_invisible (inp : HandlerInput) (req : Request)
    (hauth : checkAuthorization inp.allowList inp.authHeader = .allowed)
    (hparse : unmarshalRequest inp.payload = .ok req) :
    (submitHandler { inp with persistOk := false }).status =
      (submitHandler { inp with persistOk := true }).status ∧
    (submitHandler { inp with persistOk := false }).body =
      (submitHandler { inp with persistOk := true }).body ∧
    (submitHandler { inp with persistOk := false }).notifications =
      (submitHandler { inp with persistOk := true }).notifications ∧
    (submitHandler { inp with persistOk := false }).status = 200 ∧
    (submitHandler { inp with persistOk := false }).notifications ≠ [] := by
  simp [submitHandler, hauth, hparse]

theorem persist_failure_invisible_witness :
    (submitHandler ⟨[], [], some .null, 0, false⟩).status =
      (submitHandler ⟨[], [], some .null, 0, true⟩).status ∧
    (submitHandler ⟨[], [], some .null, 0, false⟩).body =
      (submitHandler ⟨[], [], some .null, 0, true⟩).body ∧
    (submitHandler ⟨[], [], some .null, 0, false⟩).notifications =
      (submitHandler ⟨[], [], some .null, 0, true⟩).notifications ∧
    (submitHandler ⟨[], [], some .null, 0, false⟩).status = 200 ∧
    (submitHandler ⟨[], [], some .null, 0, false⟩).notifications ≠ [] :=
  persist_failure_invisible ⟨[], [], some .null, 0, true⟩ zeroRequest rfl rfl

/-- C8: On every accepted submission the handler dispatches exactly the
message built from the created record; its To address is the EMail of
the record, and the whole message is determined by the Name, When and
EMail of the record alone, so a second record agreeing on those fields
(its SurfId may differ) yields the identical message. -/
theorem notification_deterministic (inp : HandlerInput) (req : Request) (r2 : Record)
    (hauth : checkAuthorization inp.allowList inp.authHeader = .allowed)
    (hparse : unmarshalRequest inp.payload = .ok req)
    (hn : r2.Name = req.Name) (hw : r2.When = inp.now) (he : r2.EMail = req.EMail) :
    ∃ r : Record, (submitHandler inp).created = [r] ∧
      (submitHandler inp).notifications = [buildMessage r] ∧
      (buildMessage r).To = r.EMail ∧
      buildMessage r = buildMessage r2 := by
  refine ⟨{ When := inp.now, Name := req.Name, SurfId := req.SurfId, EMail := req.EMail },
    by simp [submitHandler, hauth, hparse], by simp [submitHandler, hauth, hparse], rfl, ?_⟩
  simp [buildMessage, hn, hw, he]

theorem notification_deterministic_witness :
    ∃ r : Record,
      (submitHandler ⟨[], [], some .null, 3, true⟩).created = [r] ∧
      (submitHandler ⟨[], [], some .null, 3, true⟩).notifications = [buildMessage r] ∧
      (buildMessage r).To = r.EMail ∧
      buildMessage r = buildMessage ⟨3, [], bytes "someOtherSurfId", []⟩ :=
  notification_deterministic ⟨[], [], some .null, 3, true⟩ zeroRequest
    ⟨3, [], bytes "someOtherSurfId", []⟩ rfl rfl rfl rfl rfl

/-- C9: The comparison of a presented token against a configured entry
costs a function of the two lengths alone, so two tokens of equal length
are indistinguishable by it; the scanning loop examines candidates until
all are scanned or a match is found, and its total cost is determined by
the token length and the pattern of exact matches, never by how many
bytes of a token partially agree with an entry. -/
theorem auth_token_compare_constant_time
    (x x2 y t1 t2 : GoStr) (L : List GoStr)
    (hx : x.length = x2.length) (hlen : t1.length = t2.length)
    (hmatch : ∀ ok ∈ L, constantTimeCompare t1 ok = 1 ↔ constantTimeCompare t2 ok = 1) :
    constantTimeCompareCost x y = constantTimeCompareCost x2 y ∧
    (scanTokens L t1).2 = (scanTokens L t2).2 ∧
    (scanTokens L t1).1 = (L.any fun ok => constantTimeCompare t1 ok == 1) :=
  ⟨by simp [constantTimeCompareCost, hx],
   scanTokens_cost_eq hlen L hmatch,
   scanTokens_fst_any L t1⟩

theorem auth_token_compare_constant_time_witness :
    constantTimeCompareCost (bytes "ab") (bytes "ab") =
      constantTimeCompareCost (bytes "xy") (bytes "ab") ∧
    (scanTokens [bytes "secrettoken"] (bytes "aaaaaaaaaaa")).2 =
      (scanTokens [bytes "secrettoken"] (bytes "secrettokeX")).2 ∧
    (scanTokens [bytes "secrettoken"] (bytes "aaaaaaaaaaa")).1 =
      ([bytes "secrettoken"].any fun ok =>
        constantTimeCompare (bytes "aaaaaaaaaaa") ok == 1) :=
  auth_token_compare_constant_time (bytes "ab") (bytes "xy") (bytes "ab")
    (bytes "aaaaaaaaaaa") (bytes "secrettokeX") [bytes "secrettoken"]
    (by decide) (by decide) (by decide)

/-- C10: A JSON null payload and an empty JSON object both unmarshal to
the zero request (all fields the empty string), an object holding only a
member with an unknown name unmarshals to the zero request as well, and
every authorized request whose payload unmarshals is accepted with
status 200, creating a record and dispatching one notification addressed
to the possibly-empty EMail of the request. -/
theorem lenient_unmarshal_accepts (inp : HandlerInput) (req : Request)
    (k : GoStr) (v : JVal)
    (hk1 : eqFold k (bytes "Name") = false)
    (hk2 : eqFold k (bytes "SurfId") = false)
    (hk3 : eqFold k (bytes "EMail") = false)
    (hauth : checkAuthorization inp.allowList inp.authHeader = .allowed)
    (hparse : unmarshalRequest inp.payload = .ok req) :
    unmarshalRequest (some .null) = .ok zeroRequest ∧
    unmarshalRequest (some (.obj [])) = .ok zeroRequest ∧
    unmarshalRequest (some (.obj [(k, v)])) = .ok zeroRequest ∧
    (submitHandler inp).status = 200 ∧
    (submitHandler inp).created =
      [{ When := inp.now, Name := req.Name, SurfId := req.SurfId, EMail := req.EMail }] ∧
    (submitHandler inp).notifications =
      [buildMessage { When := inp.now, Name := req.Name, SurfId := req.SurfId, EMail := req.EMail }] ∧
    (buildMessage { When := inp.now, Name := req.Name, SurfId := req.SurfId, EMail := req.EMail }).To =
      req.EMail := by
  refine ⟨rfl, rfl, ?_, ?_, ?_, ?_, rfl⟩
  · simp [unmarshalRequest, unmarshalFields, setField, hk1, hk2, hk3]
  · simp [submitHandler, hauth, hparse]
  · simp [submitHandler, hauth, hparse]
  · simp [submitHandler, hauth, hparse]

theorem lenient_unmarshal_accepts_witness :
    unmarshalRequest (some .null) = .ok zeroRequest ∧
    unmarshalRequest (some (.obj [])) = .ok zeroRequest ∧
    unmarshalRequest (some (.obj [(bytes "Unknown", .num 3)])) = .ok zeroRequest ∧
    (submitHandler ⟨[], [], some (.obj []), 0, true⟩).status = 200 ∧
    (submitHandler ⟨[], [], some (.obj []), 0, true⟩).created =
      [{ When := 0, Name := [], SurfId := [], EMail := [] }] ∧
    (submitHandler ⟨[], [], some (.obj []), 0, true⟩).notifications =
      [buildMessage { When := 0, Name := [], SurfId := [], EMail := [] }] ∧
    (buildMessage { When := 0, Name := [], SurfId := [], EMail := [] }).To = [] :=
  lenient_unmarshal_accepts ⟨[], [], some (.obj []), 0, true⟩ zeroRequest
    (bytes "Unknown") (.num 3) (by decide) (by decide) (by decide) rfl rfl

end Privsematt
